import Mathlib

/-!
Verification of the RLZ library core: the Windows registry-backed value store
(`src/win/lib/rlz_value_store_registry.cc`) and the financial-ping scheduler and
request builder (`src/trunk/lib/financial_ping.cc`).

The backing registry (`base::win::RegKey` and friends) is an external collaborator:
it is modelled as a finite map from key paths to named, typed values, with key
creation, value read/write/delete, recursive key deletion and child/value counting.
Collaborators that live in this repository but outside the provided sources
(`lib_values.cc`, `rlz_lib.cc`, `string_utils.cc`) are modelled from the spec and
carry a `Modelled from the spec:` doc comment.
-/

namespace RlzLib

/-- A registry key path, as the list of path components below the root
(`HKEY_CURRENT_USER`). `Software\Google\Common\Rlz` is
`["Software", "Google", "Common", "Rlz"]`. -/
abbrev RegPath := List String

/-- Typed registry data: `REG_QWORD` (64-bit integers such as ping times),
`REG_DWORD` (the sentinel `1` stored for events), and `REG_SZ` (RLZ strings). -/
inductive RegData where
  | qword (v : Int)
  | dword (v : Nat)
  | sz (s : String)
deriving DecidableEq, Repr

/-- The registry state: the set of existing keys and the named values stored
under them. A value entry is `(key path, value name, data)`; the value name `""`
stands for the key's default (unnamed) value, which is what the Win32 API
addresses when a `NULL` value-name pointer is passed. -/
structure Registry where
  keys : List RegPath
  vals : List (RegPath × String × RegData)
deriving DecidableEq, Repr

def Registry.empty : Registry := ⟨[], []⟩

def Registry.keyExists (r : Registry) (p : RegPath) : Bool :=
  decide (p ∈ r.keys)

/-- All non-empty prefixes of a path, shortest first. -/
def pathPrefixes (p : RegPath) : List RegPath :=
  (List.range p.length).map (fun i => p.take (i + 1))

/-- `RegCreateKeyEx`: creates the key and every missing intermediate key. -/
def Registry.createKey (r : Registry) (p : RegPath) : Registry :=
  { r with keys := r.keys ++ (pathPrefixes p).filter (fun q => !(decide (q ∈ r.keys))) }

/-- `RegQueryValueEx` at the contract level: the data stored under the given
value name of the given key, if any. -/
def Registry.readValue (r : Registry) (p : RegPath) (name : String) : Option RegData :=
  (r.vals.find? (fun e => decide (e.1 = p ∧ e.2.1 = name))).map (fun e => e.2.2)

/-- `RegSetValueEx`: replaces the value; fails if the key does not exist
(an invalid key handle). -/
def Registry.writeValue (r : Registry) (p : RegPath) (name : String) (d : RegData) :
    Registry × Bool :=
  if r.keyExists p then
    ({ r with
       vals := (p, name, d) :: r.vals.filter (fun e => !(decide (e.1 = p ∧ e.2.1 = name))) },
     true)
  else (r, false)

/-- `RegDeleteValue`: removes the named value of the key if present. -/
def Registry.deleteValue (r : Registry) (p : RegPath) (name : String) : Registry :=
  { r with vals := r.vals.filter (fun e => !(decide (e.1 = p ∧ e.2.1 = name))) }

/-- `RegistryKeyIterator.SubkeyCount()`: the number of direct child keys. -/
def Registry.subkeyCount (r : Registry) (p : RegPath) : Nat :=
  (r.keys.filter (fun q => decide (q.length = p.length + 1) && p.isPrefixOf q)).length

/-- `RegistryValueIterator.ValueCount()`: the number of values stored at the key. -/
def Registry.valueCount (r : Registry) (p : RegPath) : Nat :=
  (r.vals.filter (fun e => decide (e.1 = p))).length

/-- `base::win::RegKey::DeleteKey`: recursively deletes the key and everything
below it. -/
def Registry.deleteKeyRec (r : Registry) (p : RegPath) : Registry :=
  { keys := r.keys.filter (fun q => !(p.isPrefixOf q)),
    vals := r.vals.filter (fun e => !(p.isPrefixOf e.1)) }

/-- The byte size of a stored datum as `RegQueryValueEx` reports it: a QWORD
is 8 bytes, a DWORD 4, a string its wide characters plus the wide
terminator. -/
def RegData.byteSize : RegData → Nat
  | .qword _ => 8
  | .dword _ => 4
  | .sz s => 2 * (s.length + 1)

/-- `base::win::RegKey::ReadValue` into a fixed-size raw buffer with no type
filter: succeeds exactly when the value exists and its data fits the buffer. -/
def Registry.readValueRaw (r : Registry) (p : RegPath) (name : String) (bufSize : Nat) : Bool :=
  match r.readValue p name with
  | some d => decide (d.byteSize ≤ bufSize)
  | none => false

/-- `base::win::RegKey::ReadValueDW`: a 4-byte read that accepts only
DWORD-sized data (REG_DWORD, or REG_BINARY of the same size, which this model
does not have); a value of any other type — in particular a REG_SZ string — is
not observed. -/
def Registry.readValueDW (r : Registry) (p : RegPath) (name : String) : Bool :=
  match r.readValue p name with
  | some (RegData.dword _) => true
  | _ => false

/-- The backing registry's delete primitives, abstracted so that theorems can
quantify over arbitrary backend behaviour (including silent no-ops): the clear
operations of the value store ignore the return codes of these calls and
re-check the state themselves. -/
structure RegDeleteBackend where
  delValue : Registry → RegPath → String → Registry
  delKey : Registry → RegPath → Registry

/-- The ideal backend: deletes actually delete. -/
def idealBackend : RegDeleteBackend :=
  ⟨Registry.deleteValue, Registry.deleteKeyRec⟩

/-- A backend whose deletes silently no-op (the value-store code ignores the
return codes of `DeleteValue`/`DeleteKey`, so such a backend is indistinguishable
from one that reported success). -/
def noopDeleteBackend : RegDeleteBackend :=
  ⟨fun r _ _ => r, fun r _ => r⟩

/-! ### Products and registry locations (`rlz_value_store_registry.cc`) -/

/-- The `Product` enumerators handled by `GetProductName`. -/
inductive Product where
  | IE_TOOLBAR
  | TOOLBAR_NOTIFIER
  | PACK
  | DESKTOP
  | CHROME
  | FF_TOOLBAR
  | QSB_WIN
  | WEBAPPS
  | PINYIN_IME
  | PARTNER
deriving DecidableEq, Repr

/-- A C++ `Product`-typed argument: either one of the enumerators, or an
out-of-range value (`none`), which `GetProductName` rejects. -/
abbrev ProductEnum := Option Product

/-- `GetProductName`: the per-product single-character registry name; `none`
(the C++ `NULL` return after the diagnostic assertion) for an unknown product. -/
def GetProductName : ProductEnum → Option String
  | some .IE_TOOLBAR => some "T"
  | some .TOOLBAR_NOTIFIER => some "P"
  | some .PACK => some "U"
  | some .DESKTOP => some "D"
  | some .CHROME => some "C"
  | some .FF_TOOLBAR => some "B"
  | some .QSB_WIN => some "K"
  | some .WEBAPPS => some "W"
  | some .PINYIN_IME => some "N"
  | some .PARTNER => some "V"
  | none => none

/-- Passing a `NULL` value-name pointer to the registry API addresses the key's
default (unnamed) value, written here as the name `""`. -/
def regValueName : Option String → String
  | some s => s
  | none => ""

def kLibKeyPath : RegPath := ["Software", "Google", "Common", "Rlz"]
def kGoogleKeyPath : RegPath := ["Software", "Google"]
def kGoogleCommonKeyPath : RegPath := ["Software", "Google", "Common"]
def kRlzsSubkeyName : String := "RLZs"
def kEventsSubkeyName : String := "Events"
def kStatefulEventsSubkeyName : String := "StatefulEvents"
def kPingTimesSubkeyName : String := "PTimes"

/-- `AppendBrandToString`: a non-empty supplementary brand appends one extra
path component `_<brand>`. -/
def brandSuffix (brand : String) : List String :=
  if brand = "" then [] else ["_" ++ brand]

/-- The location `kLibKeyName\<name>` followed by the brand suffix, as built by
`GetRegKey` and `GetEventsRegKey`. -/
def rlzSubkeyPath (brand : String) (name : String) : RegPath :=
  kLibKeyPath ++ [name] ++ brandSuffix brand

/-- `GetRegKey` with write access (`Create`): the key and all intermediate keys
are created; the resulting handle is always valid. -/
def getRegKeyWrite (brand : String) (name : String) (r : Registry) : Registry × RegPath :=
  (r.createKey (rlzSubkeyPath brand name), rlzSubkeyPath brand name)

/-- `GetRegKey` with read access (`Open`): the handle is valid only if the key
exists; the registry is untouched. -/
def getRegKeyRead (brand : String) (name : String) (r : Registry) : Option RegPath :=
  if r.keyExists (rlzSubkeyPath brand name) then some (rlzSubkeyPath brand name) else none

/-- `GetEventsRegKey` with write access: builds `kLibKeyName\<event_type>` plus
brand, then (for a non-`NULL` product pointer) rejects an unknown product before
appending its name; finally `Create`s the key. -/
def GetEventsRegKeyWrite (brand : String) (eventType : String) (product? : Option ProductEnum)
    (r : Registry) : Registry × Option RegPath :=
  match product? with
  | none => (r.createKey (rlzSubkeyPath brand eventType), some (rlzSubkeyPath brand eventType))
  | some pe =>
    match GetProductName pe with
    | none => (r, none)
    | some pn =>
      (r.createKey (rlzSubkeyPath brand eventType ++ [pn]),
       some (rlzSubkeyPath brand eventType ++ [pn]))

/-- `GetEventsRegKey` with read access: same path construction, `Open` instead
of `Create`. -/
def GetEventsRegKeyRead (brand : String) (eventType : String) (product? : Option ProductEnum)
    (r : Registry) : Option RegPath :=
  match product? with
  | none =>
    if r.keyExists (rlzSubkeyPath brand eventType) then some (rlzSubkeyPath brand eventType)
    else none
  | some pe =>
    match GetProductName pe with
    | none => none
    | some pn =>
      if r.keyExists (rlzSubkeyPath brand eventType ++ [pn]) then
        some (rlzSubkeyPath brand eventType ++ [pn])
      else none

/-! ### Ping time operations (`rlz_value_store_registry.cc`, lines 172-201) -/

/-- `RlzValueStoreRegistry::WritePingTime`: create the `PTimes` key, then write
the 64-bit time under the product's name. An unknown product yields a `NULL`
name pointer, which addresses the key's default value. -/
def WritePingTime (brand : String) (product : ProductEnum) (time : Int) (r : Registry) :
    Registry × Bool :=
  let pk := getRegKeyWrite brand kPingTimesSubkeyName r
  pk.1.writeValue pk.2 (regValueName (GetProductName product)) (RegData.qword time)

/-- `RlzValueStoreRegistry::ReadPingTime`: open the `PTimes` key and read the
product's 64-bit value; `none` when the key cannot be opened or the value is
absent or not a QWORD. -/
def ReadPingTime (brand : String) (product : ProductEnum) (r : Registry) : Option Int :=
  match getRegKeyRead brand kPingTimesSubkeyName r with
  | none => none
  | some p =>
    match r.readValue p (regValueName (GetProductName product)) with
    | some (RegData.qword v) => some v
    | _ => none

/-- `RlzValueStoreRegistry::ClearPingTime`: create the `PTimes` key, delete the
product's value through the backend, then verify by re-reading into an 8-byte
`uint64` buffer with no type filter — data observed by that read makes the call
fail. -/
def ClearPingTime (bk : RegDeleteBackend) (brand : String) (product : ProductEnum)
    (r : Registry) : Registry × Bool :=
  let pk := getRegKeyWrite brand kPingTimesSubkeyName r
  let name := regValueName (GetProductName product)
  let r2 := bk.delValue pk.1 pk.2 name
  if r2.readValueRaw pk.2 name 8 then (r2, false) else (r2, true)

/-! ### Access point RLZ operations (`rlz_value_store_registry.cc`, lines 203-260) -/

/-- The access-point name resolved by the (external) `GetAccessPointName` table:
`some name` for a known access point, `none` (the C++ `NULL` pointer) otherwise.
Registry operations consume the resolved name, mirroring how the source calls
`GetAccessPointName` first and uses only the resulting string. -/
abbrev ApName := Option String

/-- Modelled from the spec: `kMaxRlzLength` lives in `lib_values.cc`, which is
not under `src/`; RLZ values are short ASCII strings bounded by this length. -/
def kMaxRlzLength : Nat := 64

/-- Modelled from the spec: `kMaxCgiLength` lives in `lib_values.cc`, which is
not under `src/`; CGI fragments fit a fixed-size buffer of this length. -/
def kMaxCgiLength : Nat := 2048

/-- Modelled from the spec: `RegKeyReadValue` (a `string_utils` helper, not
under `src/`) reads a registry string value into a fixed-size caller buffer.
It fails, leaving the reported size unchanged, when the key handle is invalid
or the value is absent or not a string; it fails reporting the required size
when the string (plus terminator) does not fit the buffer. -/
def RegKeyReadValue (r : Registry) (key? : Option RegPath) (name : String) (bufSize : Nat) :
    Option String × Nat :=
  match key? with
  | none => (none, bufSize)
  | some p =>
    match r.readValue p name with
    | some (RegData.sz s) =>
      if s.length + 1 ≤ bufSize then (some s, bufSize) else (none, s.length + 1)
    | _ => (none, bufSize)

/-- Modelled from the spec: `RegKeyWriteValue` (a `string_utils` helper, not
under `src/`) writes a string value under the given name. -/
def RegKeyWriteValue (r : Registry) (p : RegPath) (name : String) (value : String) :
    Registry × Bool :=
  r.writeValue p name (RegData.sz value)

/-- `RlzValueStoreRegistry::WriteAccessPointRlz`: reject an unknown access
point, then create the `RLZs` key and write the value. -/
def WriteAccessPointRlz (brand : String) (apName? : ApName) (newRlz : String) (r : Registry) :
    Registry × Bool :=
  match apName? with
  | none => (r, false)
  | some apn =>
    let pk := getRegKeyWrite brand kRlzsSubkeyName r
    RegKeyWriteValue pk.1 pk.2 apn newRlz

/-- `RlzValueStoreRegistry::ReadAccessPointRlz`: reject an unknown access
point; open the `RLZs` key and read the value into a buffer of `rlzSize`
characters. A failed read leaves the buffer empty and only counts as a failure
when the reported size exceeds the buffer. -/
def ReadAccessPointRlz (brand : String) (apName? : ApName) (rlzSize : Nat) (r : Registry) :
    Option String :=
  match apName? with
  | none => none
  | some apn =>
    let key? := getRegKeyRead brand kRlzsSubkeyName r
    match RegKeyReadValue r key? apn rlzSize with
    | (some s, _) => some s
    | (none, size) => if size > rlzSize then none else some ""

/-- `RlzValueStoreRegistry::ClearAccessPointRlz`: reject an unknown access
point; create the `RLZs` key, delete the value through the backend, then verify
with `ReadValueDW` — only a surviving DWORD-typed value makes the call fail,
while a surviving REG_SZ string (the type RLZ values are stored with) is not
observed by this read. -/
def ClearAccessPointRlz (bk : RegDeleteBackend) (brand : String) (apName? : ApName)
    (r : Registry) : Registry × Bool :=
  match apName? with
  | none => (r, false)
  | some apn =>
    let pk := getRegKeyWrite brand kRlzsSubkeyName r
    let r2 := bk.delValue pk.1 pk.2 apn
    if r2.readValueDW pk.2 apn then (r2, false) else (r2, true)

/-! ### Event operations (`rlz_value_store_registry.cc`, lines 121-138, 262-347) -/

/-- `RlzValueStoreRegistry::AddProductEvent`: open/create the product's
`Events` key (invalid for an unknown product) and write the sentinel `1`. -/
def AddProductEvent (brand : String) (product : ProductEnum) (eventRlz : String)
    (r : Registry) : Registry × Bool :=
  match GetEventsRegKeyWrite brand kEventsSubkeyName (some product) r with
  | (r1, some p) => r1.writeValue p eventRlz (RegData.dword 1)
  | (r1, none) => (r1, false)

/-- `RlzValueStoreRegistry::ReadProductEvents`: open the product's `Events` key
for reading; enumerate the value names stored under it. -/
def ReadProductEvents (brand : String) (product : ProductEnum) (r : Registry) :
    Option (List String) :=
  match GetEventsRegKeyRead brand kEventsSubkeyName (some product) r with
  | none => none
  | some p => some ((r.vals.filter (fun e => decide (e.1 = p))).map (fun e => e.2.1))

/-- `RlzValueStoreRegistry::ClearProductEvent`: delete the event value through
the backend (the key handle may be invalid for an unknown product, in which
case both the delete and the verifying re-read fail), then verify with
`ReadValueDW` — event values are DWORD-typed, so this read does observe a
surviving entry. -/
def ClearProductEvent (bk : RegDeleteBackend) (brand : String) (product : ProductEnum)
    (eventRlz : String) (r : Registry) : Registry × Bool :=
  match GetEventsRegKeyWrite brand kEventsSubkeyName (some product) r with
  | (r1, some p) =>
    let r2 := bk.delValue r1 p eventRlz
    if r2.readValueDW p eventRlz then (r2, false) else (r2, true)
  | (r1, none) => (r1, true)

/-- `ClearAllProductEventValues`: reject an unknown product; create the event
container key (without product suffix), recursively delete the product's
subkey through the backend, then verify the subkey no longer opens. -/
def ClearAllProductEventValues (bk : RegDeleteBackend) (brand : String)
    (product : ProductEnum) (eventType : String) (r : Registry) : Registry × Bool :=
  match GetProductName product with
  | none => (r, false)
  | some pn =>
    let base := rlzSubkeyPath brand eventType
    let r1 := r.createKey base
    let sub := base ++ [pn]
    let r2 := bk.delKey r1 sub
    if r2.keyExists sub then (r2, false) else (r2, true)

/-- `RlzValueStoreRegistry::ClearAllProductEvents`. -/
def ClearAllProductEvents (bk : RegDeleteBackend) (brand : String) (product : ProductEnum)
    (r : Registry) : Registry × Bool :=
  ClearAllProductEventValues bk brand product kEventsSubkeyName r

/-- `RlzValueStoreRegistry::AddStatefulEvent`: open/create the product's
`StatefulEvents` key (invalid for an unknown product) and write the
sentinel `1`. -/
def AddStatefulEvent (brand : String) (product : ProductEnum) (eventRlz : String)
    (r : Registry) : Registry × Bool :=
  match GetEventsRegKeyWrite brand kStatefulEventsSubkeyName (some product) r with
  | (r1, some p) => r1.writeValue p eventRlz (RegData.dword 1)
  | (r1, none) => (r1, false)

/-- `RlzValueStoreRegistry::IsStatefulEvent`: the event value is readable via
`ReadValueDW` under the product's `StatefulEvents` key. -/
def IsStatefulEvent (brand : String) (product : ProductEnum) (eventRlz : String)
    (r : Registry) : Bool :=
  match GetEventsRegKeyRead brand kStatefulEventsSubkeyName (some product) r with
  | none => false
  | some p => r.readValueDW p eventRlz

/-- `RlzValueStoreRegistry::ClearAllStatefulEvents`. -/
def ClearAllStatefulEvents (bk : RegDeleteBackend) (brand : String) (product : ProductEnum)
    (r : Registry) : Registry × Bool :=
  ClearAllProductEventValues bk brand product kStatefulEventsSubkeyName r

/-! ### Garbage collection (`rlz_value_store_registry.cc`, lines 142-163, 349-370) -/

/-- `DeleteKeyIfEmpty`: a `NULL` name fails; a missing key, or a key with
subkeys or values, is left alone with success; an existing empty key is
deleted. -/
def DeleteKeyIfEmpty (r : Registry) (keyName? : Option RegPath) : Registry × Bool :=
  match keyName? with
  | none => (r, false)
  | some p =>
    if !r.keyExists p then (r, true)
    else if r.subkeyCount p > 0 then (r, true)
    else if r.valueCount p > 0 then (r, true)
    else (r.deleteKeyRec p, true)

/-- `RlzValueStoreRegistry::CollectGarbage`: delete each of the four structural
containers if empty, then the library key and its two parents; every result
flag is discarded (`VERIFY` only logs). -/
def CollectGarbage (brand : String) (r : Registry) : Registry :=
  let r1 := (DeleteKeyIfEmpty r (some (rlzSubkeyPath brand kRlzsSubkeyName))).1
  let r2 := (DeleteKeyIfEmpty r1 (some (rlzSubkeyPath brand kEventsSubkeyName))).1
  let r3 := (DeleteKeyIfEmpty r2 (some (rlzSubkeyPath brand kStatefulEventsSubkeyName))).1
  let r4 := (DeleteKeyIfEmpty r3 (some (rlzSubkeyPath brand kPingTimesSubkeyName))).1
  let r5 := (DeleteKeyIfEmpty r4 (some kLibKeyPath)).1
  let r6 := (DeleteKeyIfEmpty r5 (some kGoogleCommonKeyPath)).1
  (DeleteKeyIfEmpty r6 (some kGoogleKeyPath)).1

/-! ### Financial ping (`financial_ping.cc`) -/

/-- Reduction of an unbounded integer to the value of the 64-bit two's
complement word holding it, as produced by the C++ conversion chain
`uint64 - int64` assigned to `int64`. -/
def int64Wrap (x : Int) : Int :=
  let m := x % (2 : Int) ^ 64
  if m < 2 ^ 63 then m else m - 2 ^ 64

/-- Modelled from the spec: `kEventsPingInterval` lives in `lib_values.cc`,
which is not under `src/`; the threshold applied when the product has pending
events (one day, in 100-nanosecond units). -/
def kEventsPingInterval : Int := 24 * 3600 * 10000000

/-- Modelled from the spec: `kNoEventsPingInterval` lives in `lib_values.cc`,
which is not under `src/`; the longer threshold applied when the product has no
pending events (seven days, in 100-nanosecond units). -/
def kNoEventsPingInterval : Int := 7 * 24 * 3600 * 10000000

/-- Modelled from the spec: `kFinancialPingPath` lives in `lib_values.cc`,
which is not under `src/`. -/
def kFinancialPingPath : String := "/tools/pso/ping"

/-- Modelled from the spec: the CGI variable names live in `lib_values.cc`,
which is not under `src/`; only their fixed order in the request matters here. -/
def kProductSignatureCgiVariable : String := "as"

/-- Modelled from the spec: see `kProductSignatureCgiVariable`. -/
def kProductBrandCgiVariable : String := "brand"

/-- Modelled from the spec: see `kProductSignatureCgiVariable`. -/
def kProductIdCgiVariable : String := "pid"

/-- Modelled from the spec: see `kProductSignatureCgiVariable`. -/
def kProductLanguageCgiVariable : String := "hl"

/-- Modelled from the spec: see `kProductSignatureCgiVariable`. -/
def kMachineIdCgiVariable : String := "id"

/-- Modelled from the spec: `GetProductEventsAsCgi` (`rlz_lib.cc`, not under
`src/`) reads the product's pending events from the value store and renders
them as a CGI fragment, returning whether any events were present. -/
def GetProductEventsAsCgi (brand : String) (product : ProductEnum) (r : Registry) :
    Bool × String :=
  match ReadProductEvents brand product r with
  | none => (false, "")
  | some [] => (false, "")
  | some evs => (true, "events=" ++ String.intercalate "," evs)

/-- Modelled from the spec: `rlz_lib::GetAccessPointRlz` (`rlz_lib.cc`, not
under `src/`) reads one access point's RLZ through the value store into a
`kMaxRlzLength + 1` buffer. -/
def GetAccessPointRlz (brand : String) (apName? : ApName) (r : Registry) : Option String :=
  ReadAccessPointRlz brand apName? (kMaxRlzLength + 1) r

/-- The test `GetAccessPointRlz(point, rlz, arraysize(rlz)) && rlz[0] != '\0'`
of the `FormRequest` access-point scan. -/
def readsNonEmptyRlz {α : Type} (brand : String) (apName : α → ApName) (pt : α)
    (r : Registry) : Bool :=
  match GetAccessPointRlz brand (apName pt) r with
  | some s => decide (s ≠ "")
  | none => false

/-- `FinancialPing::IsPingTime` (lines 305-330): fail without store read
access; ping when no ping time is recorded or the clock went backwards;
otherwise ping immediately on `no_delay` with pending events, else compare the
elapsed interval against the applicable threshold. -/
def IsPingTime (brand : String) (storeOk readAccess : Bool) (now : Int)
    (product : ProductEnum) (noDelay : Bool) (r : Registry) : Bool :=
  if !(storeOk && readAccess) then false
  else
    match ReadPingTime brand product r with
    | none => true
    | some lastPing =>
      let interval := int64Wrap (now - lastPing)
      if interval < 0 then true
      else
        let hasEvents := (GetProductEventsAsCgi brand product r).1
        if noDelay && hasEvents then true
        else decide (interval ≥ if hasEvents then kEventsPingInterval else kNoEventsPingInterval)

/-- One store read performed by `FormRequest`, in program order: the pending
events of the product, an access point's RLZ during the full scan, and the
final `GetPingParams` rendering of the chosen access-point list. -/
inductive StoreAccess (α : Type) where
  | readEvents (product : ProductEnum)
  | readApRlz (pt : α)
  | pingParams (product : ProductEnum) (points : List α)
deriving DecidableEq, Repr

/-- `FinancialPing::FormRequest` (lines 81-174), instrumented with the list of
value-store reads it performs. `α` is the access-point enumeration type;
`enumPoints` is the range `NO_ACCESS_POINT + 1 .. LAST_ACCESS_POINT - 1` in
order, `apName` the external name table. `gp` is the external `GetPingParams`
collaborator (`none` for a `false` return), `machineId?` the external
`MachineDealCode::GetMachineId` result. The caller's `access_points` array and
the optional string arguments are `none` when the C++ pointer is `NULL`. -/
def FormRequestT {α : Type} (storeOk readAccess : Bool) (brand : String)
    (enumPoints : List α) (apName : α → ApName)
    (gp : ProductEnum → List α → Registry → Option String) (machineId? : Option String)
    (product : ProductEnum) (accessPoints : Option (List α))
    (signature productBrand productId productLang : Option String)
    (excludeMachineId : Bool) (r : Registry) :
    Option String × List (StoreAccess α) :=
  if !(storeOk && readAccess) then (none, [])
  else
    match accessPoints with
    | none => (none, [])
    | some pts =>
      match signature with
      | none => (none, [])
      | some sig =>
        if brand ≠ "" ∧ productBrand ≠ some brand then (none, [])
        else
          let req1 := kFinancialPingPath ++ "?" ++ kProductSignatureCgiVariable ++ "=" ++ sig
          let req2 := match productBrand with
            | some b => req1 ++ "&" ++ kProductBrandCgiVariable ++ "=" ++ b
            | none => req1
          let req3 := match productId with
            | some pid => req2 ++ "&" ++ kProductIdCgiVariable ++ "=" ++ pid
            | none => req2
          let req4 := match productLang with
            | some l => req3 ++ "&" ++ kProductLanguageCgiVariable ++ "=" ++ l
            | none => req3
          let ev := GetProductEventsAsCgi brand product r
          let hasEvents := ev.1
          let req5 := if hasEvents then req4 ++ "&" ++ ev.2 else req4
          let allPoints :=
            if !hasEvents then
              enumPoints.foldl
                (fun acc pt => if readsNonEmptyRlz brand apName pt r then acc ++ [pt] else acc)
                []
            else []
          let chosen := if hasEvents then pts else allPoints
          let req6 := match gp product chosen r with
            | some frag => req5 ++ "&" ++ frag
            | none => req5
          let req7 :=
            if hasEvents && !excludeMachineId then
              match machineId? with
              | some mid => req6 ++ "&" ++ kMachineIdCgiVariable ++ "=" ++ mid
              | none => req6
            else req6
          (some req7,
           StoreAccess.readEvents product ::
             (if !hasEvents then enumPoints.map StoreAccess.readApRlz else []) ++
               [StoreAccess.pingParams product chosen])

/-- `FinancialPing::FormRequest`: the request string alone (`none` for a
`false` return). -/
def FormRequest {α : Type} (storeOk readAccess : Bool) (brand : String)
    (enumPoints : List α) (apName : α → ApName)
    (gp : ProductEnum → List α → Registry → Option String) (machineId? : Option String)
    (product : ProductEnum) (accessPoints : Option (List α))
    (signature productBrand productId productLang : Option String)
    (excludeMachineId : Bool) (r : Registry) : Option String :=
  (FormRequestT storeOk readAccess brand enumPoints apName gp machineId? product accessPoints
      signature productBrand productId productLang excludeMachineId r).1

/-! ### Basic registry lemmas -/

lemma mem_pathPrefixes_self (p : RegPath) (hp : p ≠ []) : p ∈ pathPrefixes p := by
  have hlen : 0 < p.length := List.length_pos.mpr hp
  refine List.mem_map.mpr ⟨p.length - 1, ?_, ?_⟩
  · exact List.mem_range.mpr (by omega)
  · have : List.length p - 1 + 1 = List.length p := by omega
    rw [this, List.take_length]

lemma keyExists_createKey_self (r : Registry) (p : RegPath) (hp : p ≠ []) :
    (r.createKey p).keyExists p = true := by
  simp only [Registry.createKey, Registry.keyExists, decide_eq_true_eq, List.mem_append,
    List.mem_filter]
  by_cases h : p ∈ r.keys
  · exact Or.inl h
  · exact Or.inr ⟨mem_pathPrefixes_self p hp, by simpa using h⟩

lemma keys_writeValue (r : Registry) (p : RegPath) (n : String) (d : RegData) :
    ((r.writeValue p n d).1).keys = r.keys := by
  simp only [Registry.writeValue]
  split <;> rfl

lemma keys_deleteValue (r : Registry) (p : RegPath) (n : String) :
    (r.deleteValue p n).keys = r.keys := rfl

lemma readValue_writeValue_self (r : Registry) (p : RegPath) (n : String) (d : RegData)
    (h : r.keyExists p = true) : ((r.writeValue p n d).1).readValue p n = some d := by
  simp [Registry.writeValue, h, Registry.readValue, List.find?]

lemma writeValue_ok (r : Registry) (p : RegPath) (n : String) (d : RegData)
    (h : r.keyExists p = true) : (r.writeValue p n d).2 = true := by
  simp [Registry.writeValue, h]

lemma readValue_deleteValue_self (r : Registry) (p : RegPath) (n : String) :
    (r.deleteValue p n).readValue p n = none := by
  simp only [Registry.deleteValue, Registry.readValue, Option.map_eq_none']
  rw [List.find?_eq_none]
  intro e he
  have := (List.mem_filter.mp he).2
  simp only [Bool.not_eq_true', decide_eq_false_iff_not] at this
  simpa using this

lemma rlzSubkeyPath_ne_nil (brand name : String) : rlzSubkeyPath brand name ≠ [] := by
  simp [rlzSubkeyPath, kLibKeyPath]

/-- C4: for every (known) product `p` and 64-bit time `t`, `WritePingTime p t`
succeeds and a subsequent `ReadPingTime p` yields `t`; `ClearPingTime p`
succeeds and a subsequent `ReadPingTime p` reports "not found". -/
theorem writePingTime_clearPingTime_roundtrip (brand : String) (p : Product) (t : Int)
    (r : Registry) :
    ((WritePingTime brand (some p) t r).2 = true ∧
      ReadPingTime brand (some p) (WritePingTime brand (some p) t r).1 = some t) ∧
    ((ClearPingTime idealBackend brand (some p) r).2 = true ∧
      ReadPingTime brand (some p) (ClearPingTime idealBackend brand (some p) r).1 = none) := by
  set path := rlzSubkeyPath brand kPingTimesSubkeyName with hpath
  have hne : path ≠ [] := rlzSubkeyPath_ne_nil brand kPingTimesSubkeyName
  have hk : (r.createKey path).keyExists path = true := keyExists_createKey_self r path hne
  set name := regValueName (GetProductName (some p)) with hname
  refine ⟨⟨?_, ?_⟩, ?_, ?_⟩
  · simpa [WritePingTime, getRegKeyWrite] using writeValue_ok (r.createKey path) path name _ hk
  · have hkeys : ((r.createKey path).writeValue path name (RegData.qword t)).1.keys =
        (r.createKey path).keys := keys_writeValue _ _ _ _
    have hkx : ((r.createKey path).writeValue path name (RegData.qword t)).1.keyExists path
        = true := by
      simpa [Registry.keyExists, hkeys] using hk
    simp [ReadPingTime, WritePingTime, getRegKeyWrite, getRegKeyRead, hkx,
      readValue_writeValue_self _ _ _ _ hk]
  · simp [ClearPingTime, getRegKeyWrite, idealBackend, Registry.readValueRaw,
      readValue_deleteValue_self (r.createKey path) path name]
  · have hkx : ((r.createKey path).deleteValue path name).keyExists path = true := by
      simpa [Registry.keyExists, keys_deleteValue] using hk
    simp [ClearPingTime, ReadPingTime, getRegKeyWrite, getRegKeyRead, idealBackend,
      Registry.readValueRaw, readValue_deleteValue_self (r.createKey path) path name, hkx]

/-! ### Scheduler claims -/

/-- C1: for a product whose stored ping time exists and whose computed 64-bit
interval `now - lastPingTime` is non-negative, under a readable store,
`IsPingTime` returns true precisely when `noDelay` holds together with pending
events, or else when the interval reaches the applicable threshold — the events
threshold with pending events, the longer no-events threshold without. -/
theorem isPingTime_threshold (brand : String) (now lastPing : Int) (product : ProductEnum)
    (noDelay : Bool) (r : Registry)
    (hping : ReadPingTime brand product r = some lastPing)
    (hpos : 0 ≤ int64Wrap (now - lastPing)) :
    IsPingTime brand true true now product noDelay r = true ↔
      ((noDelay = true ∧ (GetProductEventsAsCgi brand product r).1 = true) ∨
        int64Wrap (now - lastPing) ≥
          (if (GetProductEventsAsCgi brand product r).1 then kEventsPingInterval
           else kNoEventsPingInterval)) := by
  have hneg : ¬ int64Wrap (now - lastPing) < 0 := not_lt.mpr hpos
  simp only [IsPingTime, hping, Bool.and_self, Bool.not_true, Bool.false_eq_true, if_false,
    hneg, if_true]
  cases hnd : noDelay <;> cases hev : (GetProductEventsAsCgi brand product r).1 <;>
    simp [hnd, hev]

/-- Witness for C1 at a concrete store holding ping time 0 for CHROME, with
`now` one full no-events interval later. -/
theorem isPingTime_threshold_witness :
    IsPingTime "" true true kNoEventsPingInterval (some Product.CHROME) false
        (WritePingTime "" (some Product.CHROME) 0 Registry.empty).1 = true ↔
      ((false = true ∧
          (GetProductEventsAsCgi "" (some Product.CHROME)
              (WritePingTime "" (some Product.CHROME) 0 Registry.empty).1).1 = true) ∨
        int64Wrap (kNoEventsPingInterval - 0) ≥
          (if (GetProductEventsAsCgi "" (some Product.CHROME)
                (WritePingTime "" (some Product.CHROME) 0 Registry.empty).1).1 then
            kEventsPingInterval
          else kNoEventsPingInterval)) :=
  isPingTime_threshold "" kNoEventsPingInterval 0 (some Product.CHROME) false
    (WritePingTime "" (some Product.CHROME) 0 Registry.empty).1 (by decide) (by decide)

/-- C3: under a readable store, `IsPingTime` returns true when no ping-time
record exists, and also when the stored ping time lies in the future (the
computed 64-bit interval is negative), for every value of `noDelay`. -/
theorem isPingTime_missing_or_future (brand : String) (now : Int) (product : ProductEnum)
    (noDelay : Bool) (r : Registry) :
    (ReadPingTime brand product r = none →
      IsPingTime brand true true now product noDelay r = true) ∧
    (∀ lastPing, ReadPingTime brand product r = some lastPing →
      int64Wrap (now - lastPing) < 0 →
      IsPingTime brand true true now product noDelay r = true) := by
  constructor
  · intro h
    simp [IsPingTime, h]
  · intro lastPing h hneg
    simp [IsPingTime, h, hneg]

/-- Witness for C3: an empty store has no ping-time record; a store whose ping
time is 4 with `now = -3` yields a negative interval. -/
theorem isPingTime_missing_or_future_witness :
    IsPingTime "" true true 5 (some Product.CHROME) false Registry.empty = true ∧
    IsPingTime "" true true (-3) (some Product.CHROME) true
        (WritePingTime "" (some Product.CHROME) 4 Registry.empty).1 = true :=
  ⟨(isPingTime_missing_or_future "" 5 (some Product.CHROME) false Registry.empty).1 (by decide),
   (isPingTime_missing_or_future "" (-3) (some Product.CHROME) true
      (WritePingTime "" (some Product.CHROME) 4 Registry.empty).1).2 4 (by decide) (by decide)⟩

/-! ### Request builder claims -/

/-- C5: `FormRequest` returns failure — no request string — whenever the
`accessPoints` argument or the `signature` argument is absent, or a brand
namespace is active and the supplied brand does not equal it exactly, for every
combination of the remaining arguments (including the lock state). -/
theorem formRequest_fails_on_bad_inputs {α : Type} (storeOk readAccess : Bool) (brand : String)
    (enumPoints : List α) (apName : α → ApName)
    (gp : ProductEnum → List α → Registry → Option String) (machineId? : Option String)
    (product : ProductEnum) (accessPoints : Option (List α))
    (sig pb pid lang : Option String) (ex : Bool) (r : Registry)
    (hbad : accessPoints = none ∨ sig = none ∨ (brand ≠ "" ∧ pb ≠ some brand)) :
    FormRequest storeOk readAccess brand enumPoints apName gp machineId? product accessPoints
      sig pb pid lang ex r = none := by
  cases hso : (storeOk && readAccess) with
  | false => simp [FormRequest, FormRequestT, hso]
  | true =>
    rcases hbad with h | h | h
    · subst h
      simp [FormRequest, FormRequestT, hso]
    · subst h
      cases accessPoints <;> simp [FormRequest, FormRequestT, hso]
    · cases accessPoints <;> cases sig <;> simp [FormRequest, FormRequestT, hso, h]

/-- Witness for C5: a null `accessPoints` argument. -/
theorem formRequest_fails_on_bad_inputs_witness :
    FormRequest true true "" ([] : List Nat) (fun _ => none) (fun _ _ _ => none) none
      (some Product.CHROME) none (some "sig") none none none false Registry.empty = none :=
  formRequest_fails_on_bad_inputs true true "" [] (fun _ => none) (fun _ _ _ => none) none
    (some Product.CHROME) none (some "sig") none none none false Registry.empty (Or.inl rfl)

/-- C9: on a precondition violation (null `accessPoints`, null `signature`, or
brand mismatch against an active namespace) `FormRequest` fails having read
nothing from the value store: its store-access trace is empty. -/
theorem formRequest_no_store_reads_on_violation {α : Type} (storeOk readAccess : Bool)
    (brand : String) (enumPoints : List α) (apName : α → ApName)
    (gp : ProductEnum → List α → Registry → Option String) (machineId? : Option String)
    (product : ProductEnum) (accessPoints : Option (List α))
    (sig pb pid lang : Option String) (ex : Bool) (r : Registry)
    (hbad : accessPoints = none ∨ sig = none ∨ (brand ≠ "" ∧ pb ≠ some brand)) :
    (FormRequestT storeOk readAccess brand enumPoints apName gp machineId? product accessPoints
        sig pb pid lang ex r).1 = none ∧
    (FormRequestT storeOk readAccess brand enumPoints apName gp machineId? product accessPoints
        sig pb pid lang ex r).2 = [] := by
  cases hso : (storeOk && readAccess) with
  | false => simp [FormRequestT, hso]
  | true =>
    rcases hbad with h | h | h
    · subst h
      simp [FormRequestT, hso]
    · subst h
      cases accessPoints <;> simp [FormRequestT, hso]
    · cases accessPoints <;> cases sig <;> simp [FormRequestT, hso, h]

/-- Witness for C9: an active brand namespace `"XY"` with a mismatching caller
brand. -/
theorem formRequest_no_store_reads_on_violation_witness :
    (FormRequestT true true "XY" ([] : List Nat) (fun _ => none) (fun _ _ _ => none) none
        (some Product.CHROME) (some []) (some "sig") (some "ZZ") none none false
        Registry.empty).1 = none ∧
    (FormRequestT true true "XY" ([] : List Nat) (fun _ => none) (fun _ _ _ => none) none
        (some Product.CHROME) (some []) (some "sig") (some "ZZ") none none false
        Registry.empty).2 = [] :=
  formRequest_no_store_reads_on_violation true true "XY" [] (fun _ => none) (fun _ _ _ => none)
    none (some Product.CHROME) (some []) (some "sig") (some "ZZ") none none false Registry.empty
    (Or.inr (Or.inr ⟨by decide, by decide⟩))

/-! ### Verify-after-delete claims -/

/-- C6 failing input: `ClearAccessPointRlz` over a backend whose delete
silently no-ops (reported success is ignored by the source anyway) on a store
holding the REG_SZ RLZ value `"RLZVAL"` for access point `"A"` returns success
even though the value is still stored and readable afterwards: the verifying
re-read is `ReadValueDW`, a DWORD-typed read that cannot observe a surviving
REG_SZ string, so the write-then-verify discipline the claim states cannot fire
for the value type this key actually stores. -/
theorem clearAccessPointRlz_vacuous_verify :
    (ClearAccessPointRlz noopDeleteBackend "" (some "A")
        (WriteAccessPointRlz "" (some "A") "RLZVAL" Registry.empty).1).2 = true ∧
    ((ClearAccessPointRlz noopDeleteBackend "" (some "A")
        (WriteAccessPointRlz "" (some "A") "RLZVAL" Registry.empty).1).1.readValue
        (rlzSubkeyPath "" kRlzsSubkeyName) "A") = some (RegData.sz "RLZVAL") ∧
    ReadAccessPointRlz "" (some "A") (kMaxRlzLength + 1)
        (ClearAccessPointRlz noopDeleteBackend "" (some "A")
          (WriteAccessPointRlz "" (some "A") "RLZVAL" Registry.empty).1).1 =
      some "RLZVAL" := by decide

/-! ### Unknown-identifier claims -/

/-- C8 counterexample: `WritePingTime` invoked with an unknown (non-enumerated)
product on an empty store does not fail and does not leave the store unchanged:
`GetPingTimesRegKey(KEY_WRITE, ...)` creates the `PTimes` container key before
the product name is ever resolved, and the `NULL` name returned for the unknown
product makes `WriteValue` target the key's default value, so the call even
reports success. -/
theorem writePingTime_unknown_product_modifies_store :
    (WritePingTime "" none 7 Registry.empty).1 ≠ Registry.empty ∧
    (WritePingTime "" none 7 Registry.empty).2 = true := by decide

/-- C8 amended: the operations that resolve the identifier before touching the
registry — `WriteAccessPointRlz`, `ClearAccessPointRlz`,
`ClearAllProductEvents`, `ClearAllStatefulEvents`, `AddProductEvent`,
`AddStatefulEvent` — fail immediately on an unknown product or access point and
leave the store completely unchanged, for an arbitrary backend. -/
theorem unknown_identifier_rejected_without_store_change (bk : RegDeleteBackend)
    (brand : String) (pe : ProductEnum) (apn? : ApName) (rlzv ev : String)
    (r : Registry) (hp : GetProductName pe = none) (hap : apn? = none) :
    WriteAccessPointRlz brand apn? rlzv r = (r, false) ∧
    ClearAccessPointRlz bk brand apn? r = (r, false) ∧
    ClearAllProductEvents bk brand pe r = (r, false) ∧
    ClearAllStatefulEvents bk brand pe r = (r, false) ∧
    AddProductEvent brand pe ev r = (r, false) ∧
    AddStatefulEvent brand pe ev r = (r, false) := by
  subst hap
  refine ⟨rfl, rfl, ?_, ?_, ?_, ?_⟩
  · simp [ClearAllProductEvents, ClearAllProductEventValues, hp]
  · simp [ClearAllStatefulEvents, ClearAllProductEventValues, hp]
  · simp [AddProductEvent, GetEventsRegKeyWrite, hp]
  · simp [AddStatefulEvent, GetEventsRegKeyWrite, hp]

/-- Witness for the amended C8 at the out-of-range product and the `NULL`
access-point name. -/
theorem unknown_identifier_rejected_without_store_change_witness :
    WriteAccessPointRlz "" none "RLZVAL" Registry.empty = (Registry.empty, false) ∧
    ClearAccessPointRlz idealBackend "" none Registry.empty = (Registry.empty, false) ∧
    ClearAllProductEvents idealBackend "" none Registry.empty = (Registry.empty, false) ∧
    ClearAllStatefulEvents idealBackend "" none Registry.empty = (Registry.empty, false) ∧
    AddProductEvent "" none "CAF" Registry.empty = (Registry.empty, false) ∧
    AddStatefulEvent "" none "CAF" Registry.empty = (Registry.empty, false) :=
  unknown_identifier_rejected_without_store_change idealBackend "" none none "RLZVAL" "CAF"
    Registry.empty (by decide) rfl

/-! ### Access-point read claims -/

/-- C10: for a known access point, `ReadAccessPointRlz` succeeds with the empty
string when no RLZ string is stored; it succeeds with the stored string when it
fits the caller's buffer; and it fails only for an unknown access point or a
stored string too large for the buffer. -/
theorem readAccessPointRlz_characterization (brand apn : String) (size : Nat) (r : Registry) :
    ((∀ s, r.readValue (rlzSubkeyPath brand kRlzsSubkeyName) apn ≠ some (RegData.sz s)) →
      ReadAccessPointRlz brand (some apn) size r = some "") ∧
    (∀ s, r.readValue (rlzSubkeyPath brand kRlzsSubkeyName) apn = some (RegData.sz s) →
      r.keyExists (rlzSubkeyPath brand kRlzsSubkeyName) = true →
      s.length + 1 ≤ size →
      ReadAccessPointRlz brand (some apn) size r = some s) ∧
    (ReadAccessPointRlz brand none size r = none) ∧
    (ReadAccessPointRlz brand (some apn) size r = none →
      ∃ s, r.readValue (rlzSubkeyPath brand kRlzsSubkeyName) apn = some (RegData.sz s) ∧
        size < s.length + 1) := by
  refine ⟨?_, ?_, rfl, ?_⟩
  · intro hnone
    by_cases hk : r.keyExists (rlzSubkeyPath brand kRlzsSubkeyName) = true
    · cases hv : r.readValue (rlzSubkeyPath brand kRlzsSubkeyName) apn with
      | none => simp [ReadAccessPointRlz, getRegKeyRead, RegKeyReadValue, hk, hv]
      | some d =>
        cases d with
        | qword v => simp [ReadAccessPointRlz, getRegKeyRead, RegKeyReadValue, hk, hv]
        | dword v => simp [ReadAccessPointRlz, getRegKeyRead, RegKeyReadValue, hk, hv]
        | sz s => exact absurd hv (hnone s)
    · simp only [Bool.not_eq_true] at hk
      simp [ReadAccessPointRlz, getRegKeyRead, RegKeyReadValue, hk]
  · intro s hv hk hfit
    simp [ReadAccessPointRlz, getRegKeyRead, RegKeyReadValue, hk, hv, hfit]
  · intro hfail
    by_cases hk : r.keyExists (rlzSubkeyPath brand kRlzsSubkeyName) = true
    · cases hv : r.readValue (rlzSubkeyPath brand kRlzsSubkeyName) apn with
      | none => simp [ReadAccessPointRlz, getRegKeyRead, RegKeyReadValue, hk, hv] at hfail
      | some d =>
        cases d with
        | qword v => simp [ReadAccessPointRlz, getRegKeyRead, RegKeyReadValue, hk, hv] at hfail
        | dword v => simp [ReadAccessPointRlz, getRegKeyRead, RegKeyReadValue, hk, hv] at hfail
        | sz s =>
          refine ⟨s, rfl, ?_⟩
          by_cases hfit : s.length + 1 ≤ size
          · simp [ReadAccessPointRlz, getRegKeyRead, RegKeyReadValue, hk, hv, hfit] at hfail
          · omega
    · simp only [Bool.not_eq_true] at hk
      simp [ReadAccessPointRlz, getRegKeyRead, RegKeyReadValue, hk] at hfail

/-- Witness for C10: an empty store holds no RLZ value, so reading a known
access point succeeds with the empty string. -/
theorem readAccessPointRlz_characterization_witness :
    ReadAccessPointRlz "" (some "A") 65 Registry.empty = some "" :=
  (readAccessPointRlz_characterization "" "A" 65 Registry.empty).1
    (fun _ h => Option.noConfusion h)

/-! ### Access-point selection in FormRequest -/

lemma foldl_collect_eq_filter {α : Type} (f : α → Bool) (l acc : List α) :
    l.foldl (fun acc pt => if f pt then acc ++ [pt] else acc) acc = acc ++ l.filter f := by
  induction l generalizing acc with
  | nil => simp
  | cons a l ih =>
    cases h : f a <;>
      simp [List.filter_cons, h, ih, List.append_assoc]

/-- C2: with pending events absent, the `GetPingParams` RLZ fragment is
computed over the access points of the full enumeration (in order) whose stored
RLZ is non-empty, the caller-supplied list being ignored entirely; with pending
events present, it is computed over exactly the caller-supplied list. The first
conjunct pins the list handed to the collaborator through the access trace, the
second shows the output depends on the collaborator only through its value at
that list, and the third shows the caller list is immaterial without events. -/
theorem formRequest_point_selection {α : Type} (brand : String) (enumPoints : List α)
    (apName : α → ApName) (gp gp' : ProductEnum → List α → Registry → Option String)
    (machineId? : Option String) (product : ProductEnum) (pts pts' : List α) (sig : String)
    (pb pid lang : Option String) (ex : Bool) (r : Registry)
    (hbrand : brand = "" ∨ pb = some brand) :
    ((FormRequestT true true brand enumPoints apName gp machineId? product (some pts)
        (some sig) pb pid lang ex r).2 =
      StoreAccess.readEvents product ::
        (if (GetProductEventsAsCgi brand product r).1 then []
          else enumPoints.map StoreAccess.readApRlz) ++
          [StoreAccess.pingParams product
            (if (GetProductEventsAsCgi brand product r).1 then pts
              else enumPoints.filter (fun pt => readsNonEmptyRlz brand apName pt r))]) ∧
    (gp product
        (if (GetProductEventsAsCgi brand product r).1 then pts
          else enumPoints.filter (fun pt => readsNonEmptyRlz brand apName pt r)) r =
      gp' product
        (if (GetProductEventsAsCgi brand product r).1 then pts
          else enumPoints.filter (fun pt => readsNonEmptyRlz brand apName pt r)) r →
      FormRequestT true true brand enumPoints apName gp machineId? product (some pts)
        (some sig) pb pid lang ex r =
      FormRequestT true true brand enumPoints apName gp' machineId? product (some pts)
        (some sig) pb pid lang ex r) ∧
    ((GetProductEventsAsCgi brand product r).1 = false →
      FormRequestT true true brand enumPoints apName gp machineId? product (some pts)
        (some sig) pb pid lang ex r =
      FormRequestT true true brand enumPoints apName gp machineId? product (some pts')
        (some sig) pb pid lang ex r) := by
  have hnb : ¬(brand ≠ "" ∧ pb ≠ some brand) := by
    rcases hbrand with h | h
    · exact fun hc => hc.1 h
    · exact fun hc => hc.2 h
  refine ⟨?_, ?_, ?_⟩
  · cases hev : (GetProductEventsAsCgi brand product r).1 <;>
      simp [FormRequestT, if_neg hnb, hev, foldl_collect_eq_filter]
  · intro heq
    cases hev : (GetProductEventsAsCgi brand product r).1 <;>
      rw [hev] at heq <;> simp only [if_true, if_false, Bool.false_eq_true] at heq <;>
      simp [FormRequestT, if_neg hnb, hev, foldl_collect_eq_filter, heq]
  · intro hev
    simp [FormRequestT, if_neg hnb, hev]

/-- Witness for C2 over a one-point enumeration and an empty store (hence no
pending events and no live RLZ values): the collaborator receives the empty
list, not the caller's. -/
theorem formRequest_point_selection_witness :
    (FormRequestT true true "" [0] (fun _ => some "A") (fun _ _ _ => some "F") none
        (some Product.CHROME) (some [3]) (some "s") none none none false
        Registry.empty).2 =
      [StoreAccess.readEvents (some Product.CHROME), StoreAccess.readApRlz 0,
        StoreAccess.pingParams (some Product.CHROME) ([] : List Nat)] :=
  ((formRequest_point_selection "" [0] (fun _ => some "A") (fun _ _ _ => some "F")
      (fun _ _ _ => some "F") none (some Product.CHROME) [3] [3] "s" none none none false
      Registry.empty (Or.inl rfl)).1).trans (by decide)

/-! ### Garbage collection claims -/

/-- Well-formedness as the Windows registry maintains it: every existing key is
a non-empty path whose non-empty proper prefixes also exist as keys, and every
value lives under an existing key. -/
def Registry.PrefixClosed (r : Registry) : Prop :=
  (∀ q ∈ r.keys, q ≠ [] ∧ ∀ n, 0 < n → n < q.length → q.take n ∈ r.keys) ∧
  (∀ e ∈ r.vals, e.1 ∈ r.keys)

lemma isPrefixOf_eq_false_iff (l₁ l₂ : List String) :
    List.isPrefixOf l₁ l₂ = false ↔ ¬ l₁ <+: l₂ := by
  rw [Bool.eq_false_iff]
  simp [List.isPrefixOf_iff_prefix]

lemma valueCount_pos_iff (r : Registry) (p : RegPath) :
    0 < r.valueCount p ↔ ∃ e ∈ r.vals, e.1 = p := by
  constructor
  · intro h
    obtain ⟨e, he⟩ := List.exists_mem_of_length_pos h
    exact ⟨e, (List.mem_filter.mp he).1, by simpa using (List.mem_filter.mp he).2⟩
  · rintro ⟨e, he, rfl⟩
    exact List.length_pos_of_mem (List.mem_filter.mpr ⟨he, by simp⟩)

lemma keyExists_of_valueCount_pos (r : Registry)
    (hvk : ∀ e ∈ r.vals, e.1 ∈ r.keys) (q : RegPath) (h : 0 < r.valueCount q) :
    r.keyExists q = true := by
  obtain ⟨e, he, heq⟩ := (valueCount_pos_iff r q).mp h
  simpa [Registry.keyExists] using heq ▸ hvk e he

lemma subkeyCount_pos_of_child (r : Registry) (p c : RegPath) (hc : c ∈ r.keys)
    (hlen : c.length = p.length + 1) (hpre : p <+: c) : 0 < r.subkeyCount p :=
  List.length_pos_of_mem
    (List.mem_filter.mpr ⟨hc, by simp [hlen, List.isPrefixOf_iff_prefix, hpre]⟩)

lemma exists_child_of_proper_prefix (r : Registry)
    (hcl : ∀ q ∈ r.keys, q ≠ [] ∧ ∀ n, 0 < n → n < q.length → q.take n ∈ r.keys)
    (p q : RegPath) (hq : q ∈ r.keys) (hpre : p <+: q) (hne : p ≠ q) :
    ∃ c ∈ r.keys, c.length = p.length + 1 ∧ p <+: c := by
  have hle := hpre.length_le
  have hlt : p.length < q.length :=
    lt_of_le_of_ne hle (fun hl => hne (List.IsPrefix.eq_of_length hpre hl))
  refine ⟨q.take (p.length + 1), ?_, ?_, ?_⟩
  · rcases Nat.lt_or_ge (p.length + 1) q.length with h | h
    · exact (hcl q hq).2 (p.length + 1) (Nat.succ_pos _) h
    · have hql : p.length + 1 = q.length := by omega
      rw [hql, List.take_length]
      exact hq
  · rw [List.length_take]
    omega
  · rw [List.prefix_iff_eq_take, List.take_take, min_eq_left (Nat.le_succ _),
      ← List.prefix_iff_eq_take]
    exact hpre

/-- `DeleteKeyIfEmpty` never deletes a value and keeps a well-formed registry
well-formed: the only key it ever removes is the empty key itself. -/
lemma deleteKeyIfEmpty_frame (r : Registry) (p : RegPath) (hwf : r.PrefixClosed) :
    (DeleteKeyIfEmpty r (some p)).1.vals = r.vals ∧
    (DeleteKeyIfEmpty r (some p)).1.PrefixClosed := by
  obtain ⟨hcl, hvk⟩ := hwf
  by_cases hk : r.keyExists p = true
  · by_cases hsc : r.subkeyCount p > 0
    · simp [DeleteKeyIfEmpty, hk, hsc]
      exact ⟨hcl, hvk⟩
    · by_cases hvc : r.valueCount p > 0
      · simp [DeleteKeyIfEmpty, hk, hsc, hvc]
        exact ⟨hcl, hvk⟩
      · have hvc0 : r.valueCount p = 0 := by omega
        have hq_surv : ∀ q ∈ r.keys, q ≠ p → ¬ p <+: q := by
          intro q hq hne hpre
          obtain ⟨c, hc, hclen, hcpre⟩ :=
            exists_child_of_proper_prefix r hcl p q hq hpre (fun h => hne h.symm)
          exact hsc (subkeyCount_pos_of_child r p c hc hclen hcpre)
        have hv_surv : ∀ e ∈ r.vals, ¬ p <+: e.1 := by
          intro e he hpre
          by_cases heq : e.1 = p
          · exact absurd ((valueCount_pos_iff r p).mpr ⟨e, he, heq⟩) (by omega)
          · exact hq_surv e.1 (hvk e he) heq hpre
        have hvals : r.vals.filter (fun e => !(p.isPrefixOf e.1)) = r.vals := by
          rw [List.filter_eq_self]
          intro e he
          simp only [Bool.not_eq_true']
          rw [isPrefixOf_eq_false_iff]
          exact hv_surv e he
        simp only [DeleteKeyIfEmpty, hk, Bool.not_true, Bool.false_eq_true, if_false,
          if_neg hsc, if_neg hvc, Registry.deleteKeyRec]
        refine ⟨hvals, ⟨?_, ?_⟩⟩
        · intro q hq
          have hq' := List.mem_filter.mp hq
          have hqk := hq'.1
          have hqnp : ¬ p <+: q :=
            (isPrefixOf_eq_false_iff _ _).mp (by simpa using hq'.2)
          refine ⟨(hcl q hqk).1, fun n hn hnl => ?_⟩
          refine List.mem_filter.mpr ⟨(hcl q hqk).2 n hn hnl, ?_⟩
          simp only [Bool.not_eq_true']
          rw [isPrefixOf_eq_false_iff]
          intro hp'
          exact hqnp (hp'.trans (List.take_prefix n q))
        · intro e he
          rw [hvals] at he
          refine List.mem_filter.mpr ⟨hvk e he, ?_⟩
          simp only [Bool.not_eq_true']
          rw [isPrefixOf_eq_false_iff]
          exact hv_surv e he
  · simp [DeleteKeyIfEmpty, hk]
    exact ⟨hcl, hvk⟩

/-- Iterating `DeleteKeyIfEmpty` over any list of paths preserves all values,
well-formedness, and every key holding at least one value. -/
lemma deleteKeyIfEmpty_chain (ps : List RegPath) (r : Registry) (hwf : r.PrefixClosed) :
    (ps.foldl (fun s q => (DeleteKeyIfEmpty s (some q)).1) r).vals = r.vals ∧
    (ps.foldl (fun s q => (DeleteKeyIfEmpty s (some q)).1) r).PrefixClosed ∧
    (∀ q, 0 < r.valueCount q →
      (ps.foldl (fun s q => (DeleteKeyIfEmpty s (some q)).1) r).keyExists q = true) := by
  induction ps generalizing r with
  | nil =>
    exact ⟨rfl, hwf, fun q hq => keyExists_of_valueCount_pos r hwf.2 q hq⟩
  | cons a ps ih =>
    obtain ⟨hv, hw⟩ := deleteKeyIfEmpty_frame r a hwf
    obtain ⟨ihv, ihw, ihk⟩ := ih (DeleteKeyIfEmpty r (some a)).1 hw
    refine ⟨by simpa [hv] using ihv, ihw, fun q hq => ihk q ?_⟩
    simpa [Registry.valueCount, hv] using hq

/-- C7: `DeleteKeyIfEmpty` leaves any container with a child key or a value
untouched (reporting success), and deletes a key only when it was empty; hence
`CollectGarbage`, which applies it to the four structural containers and then
to each ancestor up to the namespace root, preserves every stored value and
never removes a key that holds a value — deletion failures are not propagated,
`CollectGarbage` returning only the resulting store. -/
theorem collectGarbage_only_deletes_empty (brand : String) (r : Registry) (p : RegPath)
    (hwf : r.PrefixClosed) :
    (r.subkeyCount p > 0 ∨ r.valueCount p > 0 → DeleteKeyIfEmpty r (some p) = (r, true)) ∧
    (r.keyExists p = true → (DeleteKeyIfEmpty r (some p)).1.keyExists p = false →
      r.subkeyCount p = 0 ∧ r.valueCount p = 0) ∧
    (CollectGarbage brand r).vals = r.vals ∧
    (∀ q, 0 < r.valueCount q → (CollectGarbage brand r).keyExists q = true) := by
  have hfold : CollectGarbage brand r =
      [rlzSubkeyPath brand kRlzsSubkeyName, rlzSubkeyPath brand kEventsSubkeyName,
        rlzSubkeyPath brand kStatefulEventsSubkeyName,
        rlzSubkeyPath brand kPingTimesSubkeyName, kLibKeyPath, kGoogleCommonKeyPath,
        kGoogleKeyPath].foldl (fun s q => (DeleteKeyIfEmpty s (some q)).1) r := rfl
  obtain ⟨cv, cw, ck⟩ := deleteKeyIfEmpty_chain
    [rlzSubkeyPath brand kRlzsSubkeyName, rlzSubkeyPath brand kEventsSubkeyName,
      rlzSubkeyPath brand kStatefulEventsSubkeyName, rlzSubkeyPath brand kPingTimesSubkeyName,
      kLibKeyPath, kGoogleCommonKeyPath, kGoogleKeyPath] r hwf
  refine ⟨?_, ?_, by rw [hfold]; exact cv, fun q hq => by rw [hfold]; exact ck q hq⟩
  · intro h
    by_cases hk : r.keyExists p = true
    · by_cases hsc : r.subkeyCount p > 0
      · simp [DeleteKeyIfEmpty, hk, hsc]
      · have hvc : r.valueCount p > 0 := h.resolve_left hsc
        simp [DeleteKeyIfEmpty, hk, hsc, hvc]
    · simp [DeleteKeyIfEmpty, hk]
  · intro hk hdel
    by_cases hsc : r.subkeyCount p > 0
    · simp [DeleteKeyIfEmpty, hk, hsc] at hdel
    · by_cases hvc : r.valueCount p > 0
      · simp [DeleteKeyIfEmpty, hk, hsc, hvc] at hdel
      · exact ⟨by omega, by omega⟩

/-- Witness for C7 at the empty (trivially well-formed) store. -/
theorem collectGarbage_only_deletes_empty_witness :
    (CollectGarbage "" Registry.empty).vals = Registry.empty.vals :=
  (collectGarbage_only_deletes_empty "" Registry.empty ["Software"]
      ⟨fun q hq => absurd hq (by simp [Registry.empty]),
       fun e he => absurd he (by simp [Registry.empty])⟩).2.2.1

end RlzLib
